import Mathlib

/-!
# Verification of the DSSATTools simulation-run orchestrator

Shallow embedding of `src/DSSATTools/run.py` (class `Dscsm`): workspace setup,
the `run` lifecycle (stale-output clearing, derived-field compilation, input
writing, engine invocation, output reading) and `close`.

Modelling conventions:
* the filesystem is a map from directory path to a flat listing of named
  entries (`FS`); all orchestrator activity happens inside one directory;
* numeric soil quantities are rationals (`Rat`), mirroring the arithmetic
  of the source formulas;
* external collaborators (the engine subprocess, the soil/weather/crop/
  management writers) enter as explicit parameters carrying the data the
  orchestrator reads from them and the files they write;
* Python exceptions (`AssertionError`, `FileNotFoundError`) become `Err`
  values returned together with the state reached at the raise point.
-/

/-- Association-list lookup keyed by strings; returns the value at the first
occurrence of the key, mirroring dictionary / directory-entry lookup. -/
def lookupA {α : Type} : List (String × α) → String → Option α
  | [], _ => none
  | (k, v) :: t, q => if k = q then some v else lookupA t q

/-- Association-list update: replaces the value at the first occurrence of
the key, or appends the binding when the key is absent.  Mirrors writing a
file into a directory (overwrite-or-create) and Python dict assignment. -/
def setA {α : Type} : List (String × α) → String → α → List (String × α)
  | [], k, v => [(k, v)]
  | (k', v') :: t, k, v => if k' = k then (k, v) :: t else (k', v') :: setA t k v

/-- Remove every binding with the given key (models `shutil.rmtree` on the
directory map). -/
def removeAll {α : Type} : List (String × α) → String → List (String × α)
  | [], _ => []
  | (k', v) :: t, k => if k' = k then removeAll t k else (k', v) :: removeAll t k

/-- The keys of an association list (models `os.listdir` on a directory
listing). -/
def keysOf {α : Type} (l : List (String × α)) : List String := l.map (fun p => p.1)

/-- The last `n` characters of a string, most recent first.  `Python s[-n:]`
equals the reverse of this list. -/
def lastChars (n : Nat) (s : String) : List Char := s.data.reverse.take n

/-- Models the source's stale-output test `i[-3:] == "OUT"` (run.py line 181
and 244): true exactly when the name's last three characters are `OUT`,
which for names of length ≥ 3 is an `OUT` suffix and is false for shorter
names. -/
def endsOUT (s : String) : Bool := decide (lastChars 3 s = ['T', 'U', 'O'])

/-- Models `file.endswith(".CDE")` from setup (run.py line 148). -/
def endsCDE (s : String) : Bool := decide (lastChars 4 s = ['E', 'D', 'C', '.'])

/-- Models `os.path.join(a, b)` for a relative second component: inserts a
path separator unless `a` already ends in one. -/
def joinPath (a b : String) : String :=
  if a.endsWith "/" then a ++ b else a ++ "/" ++ b

/- ## Soil layers and the initial-conditions table (run.py lines 199-211) -/

/-- The two per-layer soil properties the orchestrator reads: `SLLL` (lower
water limit) and `SDUL` (upper, drained-upper water limit). -/
structure Layer where
  SLLL : Rat
  SDUL : Rat
deriving DecidableEq, Repr

/-- The per-layer initial soil water content, exactly the source expression
`layer["SLLL"] + management.initial_swc * (layer["SDUL"] - layer["SLLL"])`
(run.py lines 203-204). -/
def layerSWC (frac : Rat) (l : Layer) : Rat :=
  l.SLLL + frac * (l.SDUL - l.SLLL)

/-- The `initial_swc` list built by iterating `soil.layers.items()`
(run.py lines 199-205): one `(depth, water content)` pair per layer, in
profile order. -/
def initialSWCList (frac : Rat) (layers : List (Rat × Layer)) : List (Rat × Rat) :=
  layers.map (fun p => (p.1, layerSWC frac p.2))

/-- Modelled from the spec: `TabularSubsection` (repository code outside
`src/`, `DSSATTools.base.sections`) behaves as an ordered table, and
`sort_values(by="ICBL")` orders its rows ascending by the `ICBL` (layer
depth) column.  Modelled as an insertion sort on the first component. -/
def sortICBL (l : List (Rat × Rat)) : List (Rat × Rat) :=
  List.insertionSort (fun a b => a.1 ≤ b.1) l

/-- One row of the initial-conditions table: layer depth `ICBL`, water
content `SH2O`, ammonium `SNH4`, nitrate `SNO3`. -/
structure ICRow where
  ICBL : Rat
  SH2O : Rat
  SNH4 : Rat
  SNO3 : Rat
deriving DecidableEq, Repr

/-- The initial-conditions table of run.py lines 206-211: the depth/water
pairs sorted ascending by depth, then `SNH4` set to all zeros and `SNO3` to
`[1.] + [0.]*(len(table)-1)` (1.0 in the first row, 0.0 elsewhere).  The
source raises on an empty profile (a length-1 column against 0 rows); the
model returns the empty table there, and every statement about it assumes a
non-empty profile. -/
def icTable (frac : Rat) (layers : List (Rat × Layer)) : List ICRow :=
  match sortICBL (initialSWCList frac layers) with
  | [] => []
  | p :: rest => ⟨p.1, p.2, 0, 1⟩ :: rest.map (fun q => ⟨q.1, q.2, 0, 0⟩)

/- ## Output tables and calendar-date reconstruction (run.py lines 249-257) -/

/-- A parsed output table: named integer columns, as produced by
`pd.read_csv(..., skiprows=5, sep=" ", skipinitialspace=True)` on an engine
output file.  The model works at the parsed level; the 5-line header skip
and whitespace delimiting live inside the external parser. -/
structure Table where
  cols : List (String × List Nat)
deriving DecidableEq, Repr

/-- Column names of a parsed table (`df.columns`). -/
def colNames (t : Table) : List String := keysOf t.cols

/-- A column's values, empty when absent. -/
def getCol (t : Table) (name : String) : List Nat :=
  (lookupA t.cols name).getD []

/-- Models the f-string `str.format` with the 05d spec (run.py line 255): decimal digits of
`x` left-padded with zeros to a minimum width of five. -/
def pad5 (n : Nat) : String :=
  let s := toString n
  String.mk (List.replicate (5 - s.length) '0') ++ s

/-- Decimal-digit test on a character (ASCII 48-57). -/
def isDigitChar (c : Char) : Bool := decide (48 ≤ c.toNat ∧ c.toNat ≤ 57)

/-- Value of a digit string, most significant first. -/
def digitsToNat (l : List Char) : Nat := l.foldl (fun acc c => 10 * acc + (c.toNat - 48)) 0

/-- Models `pd.to_datetime` with format `%y%j` on one token: a five-digit
string splits into a two-digit year (pivot: 00-68 ↦ 2000-2068, 69-99 ↦
1969-1999, as in Python's `strptime %y`) and a three-digit day-of-year that
must lie in 1..366; anything else fails.  The result is the pair
`(calendar year, day of year)`. -/
def parseYJ (s : String) : Option (Nat × Nat) :=
  if s.data.length = 5 ∧ s.data.all isDigitChar then
    let yy := digitsToNat (s.data.take 2)
    let ddd := digitsToNat (s.data.drop 2)
    if 1 ≤ ddd ∧ ddd ≤ 366 then
      some (if yy ≤ 68 then 2000 + yy else 1900 + yy, ddd)
    else none
  else none

/-- The date-index reconstruction of run.py lines 253-257: when the parsed
table has both an `@YEAR` and a `DOY` column, the source evaluates
`df["@YEAR"] + df["DOY"]` — elementwise *numeric addition* of the two
integer columns — maps each sum through `str.format` with the 05d spec and parses the result
with `format="%y%j"`.  Otherwise the default row indexing is kept
(`none`). -/
def dateIndexOf (t : Table) : Option (List (Option (Nat × Nat))) :=
  if "@YEAR" ∈ colNames t ∧ "DOY" ∈ colNames t then
    some ((List.zipWith (fun a b => a + b) (getCol t "@YEAR") (getCol t "DOY")).map
      (fun x => parseYJ (pad5 x)))
  else none

/-- A stored output entry: the parsed table plus the reconstructed calendar
index when one was attached. -/
structure OutDF where
  table : Table
  dateIndex : Option (List (Option (Nat × Nat)))
deriving DecidableEq, Repr

/-- Builds the stored output entry for one parsed table (run.py lines
253-258). -/
def mkOutDF (t : Table) : OutDF := ⟨t, dateIndexOf t⟩

/- ## Management-plan derived fields (run.py lines 184-213) -/

/-- The values the compiler reads off the four domain collaborators.
Modelled from the spec: the `SoilProfile` / `WeatherStation` / `Crop` /
`Management` classes live outside `src/`; each field below is one attribute
the orchestrator reads (`soil.layers`, `soil.total_depth`, `soil.id`,
`weather.INSI`, `crop.CODE`, `crop.SMODEL`, the cultivar name resolved from
`crop.cultivar[management.cultivar]`, the start date pre-rendered in its
`%y%m` and `%y%j` forms, `management.initial_swc`, and the possibly-unset
`management.initial_conditions["ICDAT"]`, where `none` stands for a falsy
Python value). -/
structure RunInputs where
  layers : List (Rat × Layer)
  total_depth : Rat
  soil_id : String
  INSI : String
  CODE : String
  SMODEL : String
  cultivarName : String
  sim_start_ym : String
  sim_start_yj : String
  initial_swc : Rat
  ICDAT : Option String
deriving DecidableEq, Repr

/-- The derived fields run() writes back onto the management plan
(run.py lines 184-213). -/
structure ManagementOut where
  CR : String
  CNAME : String
  WSTA : String
  SLDP : Rat
  ID_SOIL : String
  PCR : String
  ICDAT : String
  SMODEL : String
  table : List ICRow
deriving DecidableEq, Repr

/-- The cross-linking of run.py lines 184-213: cultivar code and name from
the crop, weather-station id = station code ++ start year/month, soil depth
and id from the soil, initial-conditions crop code from the crop, the
initial-conditions date defaulting to the start date in day-of-year form
when unset, the initial-conditions table, and the simulation-controls model
identifier. -/
def derivedManagement (inp : RunInputs) : ManagementOut :=
  { CR := inp.CODE
    CNAME := inp.cultivarName
    WSTA := inp.INSI ++ inp.sim_start_ym
    SLDP := inp.total_depth
    ID_SOIL := inp.soil_id
    PCR := inp.CODE
    ICDAT := match inp.ICDAT with
      | some s => if s = "" then inp.sim_start_yj else s
      | none => inp.sim_start_yj
    SMODEL := inp.SMODEL
    table := icTable inp.initial_swc inp.layers }

/-- The experiment-file name of run.py lines 215-217:
`weather.INSI + sim_start('%y%m') + '.' + crop.CODE + 'X'`. -/
def mgmtFilename (inp : RunInputs) : String :=
  inp.INSI ++ inp.sim_start_ym ++ "." ++ inp.CODE ++ "X"

/- ## Filesystem model -/

/-- Contents of a file in the model, at the granularity the orchestrator
distinguishes: the copied engine binary, a copied `.CDE` reference file,
plain generated text, the serialized management plan, an opaque
collaborator-written file, or an engine output table (stored already
parsed; the text encoding is owned by the external parser). -/
inductive Content : Type
  | binaryCopy : Content
  | cdeCopy : String → Content
  | text : String → Content
  | mgmt : ManagementOut → Content
  | ext : String → Content
  | outTable : Table → Content
deriving DecidableEq, Repr

/-- A directory entry: a file with contents, or a subdirectory (the weather
subdirectory; its inner files are never read back by the orchestrator). -/
inductive Entry : Type
  | file : Content → Entry
  | subdir : Entry
deriving DecidableEq, Repr

/-- A flat directory listing: entry name → entry. -/
abbrev Listing := List (String × Entry)

/-- The filesystem: directory path → listing. -/
structure FS where
  dirs : List (String × Listing)
deriving DecidableEq, Repr

/-- The mutable state of a `Dscsm` instance (run.py lines 83-100):
the static asset root, `_RUN_PATH`, `_SETUP`, the `output` cache, and
`OUTPUT_LIST`.  `_RUN_PATH` is unset before setup; the model carries `""`
there. -/
structure Env where
  STATIC_PATH : String
  RUN_PATH : String
  SETUP : Bool
  output : List (String × OutDF)
  OUTPUT_LIST : List String
deriving DecidableEq, Repr

/-- The module constant `OUTPUTS = ["PlantGro", ]` (run.py line 74). -/
def OUTPUTS : List String := ["PlantGro"]

/-- Models `Dscsm.__init__`: readiness flag false, empty output cache, output list
`OUTPUTS`; the static root is where the package data lives. -/
def initEnv (staticPath : String) : Env :=
  ⟨staticPath, "", false, [], OUTPUTS⟩

/-- The error outcomes of the orchestrator: the two `assert` messages of
run() and the `FileNotFoundError`-style failures on a missing directory. -/
inductive Err : Type
  | precondition : String → Err
  | engineExecution : String → Err
  | outputMissing : String → Err
  | missingDir : String → Err
deriving DecidableEq, Repr

/- ## setup (run.py lines 102-153) -/

/-- An observable filesystem action of setup, recorded so that theorems can
speak about which copies actually happen. -/
inductive FsAction : Type
  | mkdirA : String → FsAction
  | copyBinary : FsAction
  | chmodA : String → Nat → FsAction
  | copyCDE : String → FsAction
deriving DecidableEq, Repr

/-- Result of setup: new instance state, new filesystem, action trace. -/
structure SetupResult where
  env : Env
  fs : FS
  trace : List FsAction
deriving DecidableEq, Repr

/-- The temp root returned by `tempfile.gettempdir()`. -/
def TMP_BASE : String := "/tmp"

/-- Basename of the engine binary `dscsm048`. -/
def binName : String := "dscsm048"

/-- The `.CDE` copy loop of run.py lines 147-152, effect on the workspace
listing: for each name in the static directory listing ending in `.CDE`,
copy it (overwriting) into the workspace. -/
def copyCDEfiles : List String → Listing → Listing
  | [], L => L
  | f :: rest, L =>
    if endsCDE f then copyCDEfiles rest (setA L f (.file (.cdeCopy f)))
    else copyCDEfiles rest L

/-- The `.CDE` copy loop of run.py lines 147-152, recorded actions: one
copy per `.CDE`-suffixed name. -/
def cdeTrace (static : List String) : List FsAction :=
  (static.filter (fun f => endsCDE f)).map (fun f => FsAction.copyCDE f)

/-- Models `Dscsm.setup` (run.py lines 102-153).  With `cwd` given, use it as the
workspace and create it when absent; otherwise allocate a fresh randomly
named directory under the temp root (`fresh` stands in for the random
8-letter name).  Copy the engine binary only when no file of that name is
already in the workspace, then `chmod` it (the source passes the decimal
literal `111` as the mode); copy every `.CDE` file from the static root;
finally set the readiness flag.  The `overwrite` argument is accepted and,
as in the source, never read.  `static` is the static root's directory
listing (`os.listdir(self._STATIC_PATH)`). -/
def setup (cwd : Option String) (overwrite : Bool) (fresh : String)
    (static : List String) (e : Env) (fs : FS) : SetupResult :=
  let runPath := match cwd with
    | some p => p
    | none => joinPath TMP_BASE fresh
  let mkdirNeeded : Bool := match cwd with
    | some p => !(lookupA fs.dirs p).isSome
    | none => true
  let dirs1 := if mkdirNeeded then setA fs.dirs runPath [] else fs.dirs
  let tr0 : List FsAction := if mkdirNeeded then [.mkdirA runPath] else []
  let L0 := (lookupA dirs1 runPath).getD []
  let binSkip : Bool := (lookupA L0 binName).isSome
  let L1 := if binSkip then L0 else setA L0 binName (.file .binaryCopy)
  let tr1 := if binSkip then tr0
    else tr0 ++ [.copyBinary, .chmodA (joinPath runPath binName) 111]
  ⟨{ e with RUN_PATH := runPath, SETUP := true },
   ⟨setA dirs1 runPath (copyCDEfiles static L1)⟩,
   tr1 ++ cdeTrace static⟩

/- ## run (run.py lines 156-259) -/

/-- Outcome of the external engine subprocess, as an oracle: its exit code
and the files it writes into the workspace while running. -/
structure EngineResult where
  returncode : Int
  written : List (String × Content)
deriving DecidableEq, Repr

/-- Result of run()/close(): the error raised (if any) together with the
instance state and filesystem reached at that point. -/
structure RunResult where
  err : Option Err
  env : Env
  fs : FS
deriving DecidableEq, Repr

/-- The precondition assert message of run.py lines 177-178. -/
def preconditionMsg : String :=
  "You must initialize the simulation environment by running the setup() method"

/-- The nonzero-exit assert message of run.py lines 239-241, naming the
engine's detailed error log `os.path.join(self._RUN_PATH, "ERROR.OUT")`. -/
def engineFailMsg (runPath : String) : String :=
  "DSSAT execution Failed, check " ++ joinPath runPath "ERROR.OUT"
    ++ " file for a detailed report"

/-- The missing-output assert message of run.py lines 247-248. -/
def missingMsg (name runPath : String) : String :=
  name ++ ".OUT does not exist in " ++ runPath

/-- Write a batch of files into a listing, first to last (used for the
collaborator `write` calls and for the engine's own writes). -/
def writeFiles (L : Listing) : List (String × Content) → Listing
  | [] => L
  | (n, c) :: rest => writeFiles (setA L n (.file c)) rest

/-- The control/registry file `DSSATPRO.L48` of run.py lines 225-231. -/
def dssatproText (e : Env) : String :=
  "WED    " ++ joinPath e.RUN_PATH "Weather" ++ "\n" ++
  "MMZ    " ++ e.RUN_PATH ++ " dscsm048 MZCER048\n" ++
  "CRD    " ++ joinPath e.STATIC_PATH "Genotype" ++ "\n" ++
  "PSD    " ++ joinPath e.STATIC_PATH "Pest" ++ "\n" ++
  "SLD    " ++ joinPath e.STATIC_PATH "Soil" ++ "\n" ++
  "STD    " ++ joinPath e.STATIC_PATH "StandardData" ++ "\n"

/-- The workspace listing just before the engine is invoked (run.py lines
180-231): stale `OUT`-suffixed files removed, then the experiment file, the
crop files (`cropFiles`, written by `crop.write`), the fixed-name soil
file, the weather subdirectory, and the control/registry file. -/
def inputsListing (e : Env) (inp : RunInputs) (cropFiles : List (String × Content))
    (L0 : Listing) : Listing :=
  let L1 := L0.filter (fun x => !endsOUT x.1)
  let L2 := setA L1 (mgmtFilename inp) (.file (.mgmt (derivedManagement inp)))
  let L3 := writeFiles L2 cropFiles
  let L4 := setA L3 "SOIL.SOL" (.file (.ext "soil"))
  let L5 := setA L4 "Weather" .subdir
  setA L5 "DSSATPRO.L48" (.file (.text (dssatproText e)))

/-- The `OUTPUT_FILES` recomputation of run.py line 244: workspace entries
whose name passes the `OUT`-suffix test. -/
def outFilesOf (L : Listing) : List String :=
  (keysOf L).filter (fun s => endsOUT s)

/-- Reads an output file's parsed table out of an entry.  Engine outputs
carry their table; any other content parses to an empty table (the external
parser would return some frame for arbitrary text; no claim depends on that
case). -/
def parseEntry : Entry → Table
  | .file (.outTable t) => t
  | _ => ⟨[]⟩

/-- The output-reading loop of run.py lines 246-258: for each requested
name in order, assert `name ++ ".OUT"` is among the `OUT`-suffixed
workspace files (else fail with the missing-output message, keeping the
outputs stored so far), parse it and store it in the output cache. -/
def readLoop : List String → Listing → Env → FS → RunResult
  | [], _, e, fs => ⟨none, e, fs⟩
  | n :: rest, L, e, fs =>
    if (n ++ ".OUT") ∈ outFilesOf L then
      let t := parseEntry ((lookupA L (n ++ ".OUT")).getD (.file (.text "")))
      readLoop rest L { e with output := setA e.output n (mkOutDF t) } fs
    else ⟨some (.outputMissing (missingMsg n e.RUN_PATH)), e, fs⟩

/-- The first requested output name whose file is absent (mirrors the order
in which the reading loop would trip its assert). -/
def firstMissing (names : List String) (L : Listing) : Option String :=
  names.find? (fun n => !decide ((n ++ ".OUT") ∈ outFilesOf L))

/-- Models `Dscsm.run` (run.py lines 156-259).  Asserts readiness; lists the
workspace (a removed workspace raises here, modelled as `missingDir`);
clears stale outputs; compiles and writes the inputs; invokes the engine
(`eng` is the subprocess oracle: the command is
`[self._BIN_PATH, 'C', basename(management_filename), '1']` run inside the
workspace); asserts a zero exit code, naming the engine error log
otherwise; then reads the requested outputs. -/
def run (e : Env) (fs : FS) (inp : RunInputs) (cropFiles : List (String × Content))
    (eng : EngineResult) : RunResult :=
  if e.SETUP = true then
    match lookupA fs.dirs e.RUN_PATH with
    | none => ⟨some (.missingDir e.RUN_PATH), e, fs⟩
    | some L0 =>
      let L7 := writeFiles (inputsListing e inp cropFiles L0) eng.written
      let fs' : FS := ⟨setA fs.dirs e.RUN_PATH L7⟩
      if eng.returncode ≠ 0 then
        ⟨some (.engineExecution (engineFailMsg e.RUN_PATH)), e, fs'⟩
      else
        readLoop e.OUTPUT_LIST L7 e fs'
  else
    ⟨some (.precondition preconditionMsg), e, fs⟩

/-- Models `Dscsm.close` (run.py lines 261-265): `shutil.rmtree(self._RUN_PATH)`.
Removes the workspace directory (raising `missingDir` when it does not
exist, as `rmtree` would); the instance state is not touched. -/
def close (e : Env) (fs : FS) : RunResult :=
  if (lookupA fs.dirs e.RUN_PATH).isSome then
    ⟨none, e, ⟨removeAll fs.dirs e.RUN_PATH⟩⟩
  else
    ⟨some (.missingDir e.RUN_PATH), e, fs⟩

/- ## Concrete sample data (used by witness theorems) -/

/-- A two-layer soil profile, given out of depth order so sorting is
exercised. -/
def sampleLayers : List (Rat × Layer) := [(15, ⟨1/5, 2/5⟩), (5, ⟨1/10, 3/10⟩)]

/-- A concrete set of collaborator readings. -/
def sampleInp : RunInputs :=
  ⟨sampleLayers, 100, "IB00000001", "DPOE", "MZ", "MZCER048", "PIONEER", "2305",
   "23121", 1/2, none⟩

/-- A concrete instance state after a successful setup. -/
def sampleEnv : Env := ⟨"/static", "/ws", true, [], ["PlantGro"]⟩

/-- A parsed growth-output table with year and day-of-year columns. -/
def sampleTable : Table := ⟨[("@YEAR", [23]), ("DOY", [45]), ("DAS", [1])]⟩

/-- An engine oracle: clean exit, one growth-output file written. -/
def sampleEngine : EngineResult := ⟨0, [("PlantGro.OUT", .outTable sampleTable)]⟩

/-- An engine oracle that fails with exit code 1 writing nothing. -/
def sampleEngineErr : EngineResult := ⟨1, []⟩

/-- An engine oracle that exits cleanly but writes no output files. -/
def sampleEngineNone : EngineResult := ⟨0, []⟩

/-- A workspace holding a stale output file and the engine binary. -/
def sampleFS : FS :=
  ⟨[("/ws", [("Stale.OUT", .file (.text "old")), ("dscsm048", .file .binaryCopy)])]⟩

/- ## Shared lemmas -/

theorem lookupA_setA_self {α : Type} (l : List (String × α)) (k : String) (v : α) :
    lookupA (setA l k v) k = some v := by
  induction l with
  | nil => simp [setA, lookupA]
  | cons h t ih =>
    obtain ⟨k', v'⟩ := h
    by_cases hk : k' = k
    · subst hk
      simp [setA, lookupA]
    · simp [setA, lookupA, hk, ih]

theorem lookupA_setA_ne {α : Type} (l : List (String × α)) (k q : String) (v : α)
    (h : q ≠ k) : lookupA (setA l k v) q = lookupA l q := by
  induction l with
  | nil => simp [setA, lookupA, Ne.symm h]
  | cons hd t ih =>
    obtain ⟨k', v'⟩ := hd
    by_cases hk : k' = k
    · subst hk
      simp [setA, lookupA, Ne.symm h]
    · simp only [setA, if_neg hk, lookupA]
      by_cases hq : k' = q
      · simp [hq]
      · simp [hq, ih]

theorem setA_lookup_eq {α : Type} {l : List (String × α)} {k : String} {v : α}
    (h : lookupA l k = some v) : setA l k v = l := by
  induction l with
  | nil => simp [lookupA] at h
  | cons hd t ih =>
    obtain ⟨k', v'⟩ := hd
    by_cases hk : k' = k
    · subst hk
      simp only [lookupA, if_pos rfl] at h
      simp at h
      simp [setA, h]
    · simp only [lookupA, if_neg hk] at h
      simp [setA, hk, ih h]

theorem setA_setA_self {α : Type} (l : List (String × α)) (k : String) (v : α) :
    setA (setA l k v) k v = setA l k v :=
  setA_lookup_eq (lookupA_setA_self l k v)

theorem setA_setA {α : Type} (l : List (String × α)) (k : String) (v w : α) :
    setA (setA l k v) k w = setA l k w := by
  induction l with
  | nil => simp [setA]
  | cons hd t ih =>
    obtain ⟨k', v'⟩ := hd
    by_cases hk : k' = k
    · subst hk
      simp [setA]
    · simp [setA, hk, ih]

theorem isSome_lookupA_setA {α : Type} (l : List (String × α)) (k q : String) (v : α)
    (h : (lookupA l q).isSome) : (lookupA (setA l k v) q).isSome := by
  by_cases hq : q = k
  · subst hq
    rw [lookupA_setA_self]
    rfl
  · rw [lookupA_setA_ne l k q v hq]
    exact h

theorem mem_keys_setA {α : Type} (l : List (String × α)) (k q : String) (v : α) :
    q ∈ keysOf (setA l k v) ↔ q = k ∨ q ∈ keysOf l := by
  induction l with
  | nil => simp [setA, keysOf]
  | cons hd t ih =>
    obtain ⟨k', v'⟩ := hd
    by_cases hk : k' = k
    · subst hk
      simp [setA, keysOf]
    · simp only [setA, if_neg hk, keysOf, List.map_cons, List.mem_cons]
      constructor
      · rintro (h | h)
        · exact Or.inr (Or.inl h)
        · rcases (ih.mp h) with h | h
          · exact Or.inl h
          · exact Or.inr (Or.inr h)
      · rintro (h | h | h)
        · exact Or.inr (ih.mpr (Or.inl h))
        · exact Or.inl h
        · exact Or.inr (ih.mpr (Or.inr h))

theorem mem_keys_writeFiles (ws : List (String × Content)) :
    ∀ (L : Listing) (q : String),
      q ∈ keysOf (writeFiles L ws) ↔ q ∈ keysOf L ∨ q ∈ keysOf ws := by
  induction ws with
  | nil => intro L q; simp [writeFiles, keysOf]
  | cons hd rest ih =>
    intro L q
    obtain ⟨n, c⟩ := hd
    simp only [writeFiles]
    rw [ih]
    rw [mem_keys_setA]
    simp only [keysOf, List.map_cons, List.mem_cons]
    tauto

theorem lookupA_removeAll_self {α : Type} (l : List (String × α)) (k : String) :
    lookupA (removeAll l k) k = none := by
  induction l with
  | nil => simp [removeAll, lookupA]
  | cons hd t ih =>
    obtain ⟨k', v'⟩ := hd
    by_cases hk : k' = k
    · simp [removeAll, hk, ih]
    · simp [removeAll, hk, lookupA, ih]

theorem lookupA_removeAll_ne {α : Type} (l : List (String × α)) (k q : String)
    (h : q ≠ k) : lookupA (removeAll l k) q = lookupA l q := by
  induction l with
  | nil => simp [removeAll]
  | cons hd t ih =>
    obtain ⟨k', v'⟩ := hd
    by_cases hk : k' = k
    · subst hk
      simp [removeAll, lookupA, Ne.symm h, ih]
    · simp only [removeAll, if_neg hk, lookupA]
      by_cases hq : k' = q
      · simp [hq]
      · simp [hq, ih]

theorem data_append (s t : String) : (s ++ t).data = s.data ++ t.data := by
  cases s
  cases t
  rfl

theorem endsOUT_append_X (s : String) : endsOUT (s ++ "X") = false := by
  have hd : (s ++ "X").data = s.data ++ ['X'] := data_append s "X"
  simp only [endsOUT, lastChars, hd, List.reverse_append, List.reverse_cons,
    List.reverse_nil, List.nil_append, List.singleton_append, List.take_succ_cons,
    decide_eq_false_iff_not]
  intro h
  exact absurd (List.head_eq_of_cons_eq h) (by decide)

theorem endsOUT_append_OUT (s : String) : endsOUT (s ++ ".OUT") = true := by
  have hd : (s ++ ".OUT").data = s.data ++ ['.', 'O', 'U', 'T'] := data_append s ".OUT"
  simp only [endsOUT, lastChars, hd, List.reverse_append, decide_eq_true_eq]
  rfl

theorem mem_keys_filterOUT (L : Listing) (q : String)
    (h : q ∈ keysOf (L.filter (fun x => !endsOUT x.1))) : endsOUT q = false := by
  simp only [keysOf, List.mem_map] at h
  obtain ⟨p, hp, hq⟩ := h
  rw [List.mem_filter] at hp
  rw [← hq]
  simpa using hp.2

theorem keys_inputsListing_not_OUT (e : Env) (inp : RunInputs)
    (cf : List (String × Content)) (L0 : Listing)
    (hcf : ∀ p ∈ cf, endsOUT p.1 = false) :
    ∀ q ∈ keysOf (inputsListing e inp cf L0), endsOUT q = false := by
  intro q hq
  unfold inputsListing at hq
  rw [mem_keys_setA] at hq
  rcases hq with hq | hq
  · subst hq; decide
  rw [mem_keys_setA] at hq
  rcases hq with hq | hq
  · subst hq; decide
  rw [mem_keys_setA] at hq
  rcases hq with hq | hq
  · subst hq; decide
  rw [mem_keys_writeFiles] at hq
  rcases hq with hq | hq
  · rw [mem_keys_setA] at hq
    rcases hq with hq | hq
    · subst hq
      exact endsOUT_append_X (inp.INSI ++ inp.sim_start_ym ++ "." ++ inp.CODE)
    · exact mem_keys_filterOUT L0 q hq
  · simp only [keysOf, List.mem_map] at hq
    obtain ⟨p, hp, hq⟩ := hq
    rw [← hq]
    exact hcf p hp

theorem readLoop_fs (names : List String) (L : Listing) (fs : FS) :
    ∀ e : Env, (readLoop names L e fs).fs = fs := by
  induction names with
  | nil => intro e; rfl
  | cons n rest ih =>
    intro e
    by_cases h : (n ++ ".OUT") ∈ outFilesOf L
    · simp only [readLoop, if_pos h]
      exact ih _
    · simp [readLoop, if_neg h]

theorem readLoop_err_cases (names : List String) (L : Listing) (fs : FS) :
    ∀ e : Env, (readLoop names L e fs).err = none
      ∨ ∃ m, (readLoop names L e fs).err = some (.outputMissing m) := by
  induction names with
  | nil => intro e; exact Or.inl rfl
  | cons n rest ih =>
    intro e
    by_cases h : (n ++ ".OUT") ∈ outFilesOf L
    · simp only [readLoop, if_pos h]
      exact ih _
    · simp only [readLoop, if_neg h]
      exact Or.inr ⟨_, rfl⟩

theorem readLoop_runPath (names : List String) (L : Listing) (fs : FS) :
    ∀ e : Env, (readLoop names L e fs).env.RUN_PATH = e.RUN_PATH := by
  induction names with
  | nil => intro e; rfl
  | cons n rest ih =>
    intro e
    by_cases h : (n ++ ".OUT") ∈ outFilesOf L
    · simp only [readLoop, if_pos h]
      exact ih _
    · simp only [readLoop, if_neg h]

theorem readLoop_output_mono (names : List String) (L : Listing) (fs : FS) (k : String) :
    ∀ e : Env, (lookupA e.output k).isSome →
      (lookupA (readLoop names L e fs).env.output k).isSome := by
  induction names with
  | nil => intro e h; exact h
  | cons n rest ih =>
    intro e h
    by_cases hm : (n ++ ".OUT") ∈ outFilesOf L
    · simp only [readLoop, if_pos hm]
      exact ih _ (isSome_lookupA_setA _ _ _ _ h)
    · simp only [readLoop, if_neg hm]
      exact h

theorem readLoop_missing (L : Listing) (fs : FS) :
    ∀ (names : List String) (e : Env) (n : String),
      firstMissing names L = some n →
      (readLoop names L e fs).err = some (.outputMissing (missingMsg n e.RUN_PATH)) := by
  intro names
  induction names with
  | nil => intro e n h; simp [firstMissing, List.find?] at h
  | cons m rest ih =>
    intro e n h
    by_cases hm : (m ++ ".OUT") ∈ outFilesOf L
    · have hp : (fun x => !decide ((x ++ ".OUT") ∈ outFilesOf L)) m = false := by
        simp [hm]
      rw [firstMissing, List.find?_cons_of_neg _ (by simp [hm])] at h
      simp only [readLoop, if_pos hm]
      exact ih _ n h
    · have h' : n = m := by
        rw [firstMissing, List.find?_cons_of_pos _ (by simp [hm])] at h
        exact (Option.some.injEq _ _ ▸ h.symm)
      subst h'
      simp only [readLoop, if_neg hm]

theorem readLoop_ok (L : Listing) (fs : FS) :
    ∀ (names : List String) (e : Env),
      firstMissing names L = none →
      (readLoop names L e fs).err = none ∧
        ∀ n ∈ names, (lookupA (readLoop names L e fs).env.output n).isSome := by
  intro names
  induction names with
  | nil => intro e _; exact ⟨rfl, by simp⟩
  | cons m rest ih =>
    intro e h
    have hm : (m ++ ".OUT") ∈ outFilesOf L := by
      by_contra hc
      rw [firstMissing, List.find?_cons_of_pos _ (by simp [hc])] at h
      exact Option.noConfusion h
    rw [firstMissing, List.find?_cons_of_neg _ (by simp [hm])] at h
    simp only [readLoop, if_pos hm]
    obtain ⟨herr, hall⟩ := ih _ h
    refine ⟨herr, ?_⟩
    intro n hn
    rcases List.mem_cons.mp hn with hn | hn
    · subst hn
      exact readLoop_output_mono rest L fs n _
        (by rw [lookupA_setA_self]; rfl)
    · exact hall n hn

theorem copyCDEfiles_isSome (static : List String) :
    ∀ (L : Listing) (k : String), (lookupA L k).isSome →
      (lookupA (copyCDEfiles static L) k).isSome := by
  induction static with
  | nil => intro L k h; exact h
  | cons f rest ih =>
    intro L k h
    by_cases hf : endsCDE f
    · simp only [copyCDEfiles, if_pos hf]
      exact ih _ _ (isSome_lookupA_setA _ _ _ _ h)
    · simp only [copyCDEfiles, if_neg hf]
      exact ih _ _ h

theorem copyCDEfiles_frame (static : List String) :
    ∀ (L : Listing) (k : String), (∀ f ∈ static, f ≠ k) →
      lookupA (copyCDEfiles static L) k = lookupA L k := by
  induction static with
  | nil => intro L k _; rfl
  | cons f rest ih =>
    intro L k h
    by_cases hf : endsCDE f
    · simp only [copyCDEfiles, if_pos hf]
      rw [ih _ _ (fun g hg => h g (List.mem_cons_of_mem f hg))]
      exact lookupA_setA_ne _ _ _ _ (Ne.symm (h f (List.mem_cons_self f rest)))
    · simp only [copyCDEfiles, if_neg hf]
      exact ih _ _ (fun g hg => h g (List.mem_cons_of_mem f hg))

theorem copyCDEfiles_mem (static : List String) :
    ∀ (L : Listing) (f : String), f ∈ static → endsCDE f = true →
      lookupA (copyCDEfiles static L) f = some (.file (.cdeCopy f)) := by
  induction static with
  | nil => intro L f h _; exact absurd h (List.not_mem_nil f)
  | cons g rest ih =>
    intro L f hmem hcde
    by_cases hr : f ∈ rest
    · by_cases hg : endsCDE g
      · simp only [copyCDEfiles, if_pos hg]
        exact ih _ _ hr hcde
      · simp only [copyCDEfiles, if_neg hg]
        exact ih _ _ hr hcde
    · have hfg : f = g := by
        rcases List.mem_cons.mp hmem with h | h
        · exact h
        · exact absurd h hr
      subst hfg
      simp only [copyCDEfiles, if_pos hcde]
      rw [copyCDEfiles_frame rest _ f (fun x hx => by
        intro he
        exact hr (he ▸ hx))]
      exact lookupA_setA_self _ _ _

theorem copyCDEfiles_id (static : List String) :
    ∀ (L : Listing),
      (∀ f ∈ static, endsCDE f = true → lookupA L f = some (.file (.cdeCopy f))) →
      copyCDEfiles static L = L := by
  induction static with
  | nil => intro L _; rfl
  | cons g rest ih =>
    intro L h
    by_cases hg : endsCDE g
    · simp only [copyCDEfiles, if_pos hg]
      rw [setA_lookup_eq (h g (List.mem_cons_self g rest) hg)]
      exact ih _ (fun f hf => h f (List.mem_cons_of_mem g hf))
    · simp only [copyCDEfiles, if_neg hg]
      exact ih _ (fun f hf => h f (List.mem_cons_of_mem g hf))

theorem copyBinary_not_mem_cdeTrace (static : List String) :
    FsAction.copyBinary ∉ cdeTrace static := by
  intro h
  simp only [cdeTrace, List.mem_map] at h
  obtain ⟨f, _, hf⟩ := h
  exact FsAction.noConfusion hf

theorem icTable_map_pairs (frac : Rat) (layers : List (Rat × Layer)) :
    (icTable frac layers).map (fun r => (r.ICBL, r.SH2O))
      = sortICBL (initialSWCList frac layers) := by
  unfold icTable
  cases h : sortICBL (initialSWCList frac layers) with
  | nil => simp
  | cons p rest =>
    simp only [List.map_cons, List.map_map]
    have hmap : List.map
        ((fun r : ICRow => (r.ICBL, r.SH2O)) ∘
          fun q : Rat × Rat => (⟨q.1, q.2, 0, 0⟩ : ICRow)) rest = rest := by
      have : ((fun r : ICRow => (r.ICBL, r.SH2O)) ∘
          fun q : Rat × Rat => (⟨q.1, q.2, 0, 0⟩ : ICRow)) = fun q => q := by
        funext q
        rfl
      rw [this, List.map_id']
    rw [hmap]

/- ## Claim theorems -/

/-- C1 — code bug.  The spec claims the Output Reader forms a 5-digit
two-digit-year/day-of-year token from the two columns, so that year=23,
day-of-year=45 reconstructs to the 45th day of 2023.  The source instead
evaluates `df["@YEAR"] + df["DOY"]`, the elementwise *sum* of the two
integer columns, pads the sum (`23 + 45 = 68 ↦ "00068"`), and `%y%j`
then reads it as day 68 of year 2000 — not the 45th day of 2023.  The
intended token `"23045"` would indeed parse to `(2023, 45)`. -/
theorem dscsm_c1_date_reconstruction :
    pad5 (23 + 45) = "00068"
    ∧ dateIndexOf ⟨[("@YEAR", [23]), ("DOY", [45])]⟩ = some [some (2000, 68)]
    ∧ dateIndexOf ⟨[("@YEAR", [23]), ("DOY", [45])]⟩ ≠ some [some (2023, 45)]
    ∧ parseYJ "23045" = some (2023, 45) := by
  refine ⟨rfl, by decide, by decide, by decide⟩

/-- C2 — confirmed.  On any instance whose readiness flag is unset, run()
returns the precondition assertion failure immediately: the instance state
and the filesystem come back exactly as they went in, so no filesystem
write happens before the failure. -/
theorem dscsm_c2_run_before_setup (e : Env) (fs : FS) (inp : RunInputs)
    (cf : List (String × Content)) (eng : EngineResult) (h : e.SETUP = false) :
    run e fs inp cf eng = ⟨some (.precondition preconditionMsg), e, fs⟩ := by
  simp [run, h]

theorem dscsm_c2_run_before_setup_w :
    (initEnv "/static").SETUP = false
    ∧ run (initEnv "/static") sampleFS sampleInp [] sampleEngine
        = ⟨some (.precondition preconditionMsg), initEnv "/static", sampleFS⟩ :=
  ⟨rfl, dscsm_c2_run_before_setup _ _ _ _ _ rfl⟩

/-- C3 — confirmed.  The rows of the initial-conditions table are, up to
the depth sort, exactly the soil layers with water content
`lower_limit + fraction * (upper_limit - lower_limit)`; and for lower
limit 0.10, upper limit 0.30 and fraction 0.5 the computed content is
exactly 0.20. -/
theorem dscsm_c3_initial_swc (frac : Rat) (layers : List (Rat × Layer)) :
    List.Perm ((icTable frac layers).map (fun r => (r.ICBL, r.SH2O)))
      (layers.map (fun p => (p.1, p.2.SLLL + frac * (p.2.SDUL - p.2.SLLL))))
    ∧ layerSWC (1/2) ⟨1/10, 3/10⟩ = 1/5 := by
  constructor
  · rw [icTable_map_pairs]
    exact List.perm_insertionSort _ _
  · norm_num [layerSWC]

/-- C4 — confirmed.  For a non-empty soil profile, the initial-conditions
table is sorted ascending by layer depth, every row has ammonium 0, the
first row (topmost layer) has nitrate 1 and every other row has
nitrate 0. -/
theorem dscsm_c4_ic_table (frac : Rat) (layers : List (Rat × Layer)) (h : layers ≠ []) :
    List.Sorted (fun a b : ICRow => a.ICBL ≤ b.ICBL) (icTable frac layers)
    ∧ (∀ r ∈ icTable frac layers, r.SNH4 = 0)
    ∧ (∃ hd tl, icTable frac layers = hd :: tl ∧ hd.SNO3 = 1 ∧ ∀ r ∈ tl, r.SNO3 = 0) := by
  have hlen : (sortICBL (initialSWCList frac layers)).length = layers.length := by
    unfold sortICBL initialSWCList
    rw [List.length_insertionSort, List.length_map]
  have hsorted : List.Sorted (fun a b : Rat × Rat => a.1 ≤ b.1)
      (sortICBL (initialSWCList frac layers)) := by
    unfold sortICBL
    haveI : IsTotal (Rat × Rat) (fun a b => a.1 ≤ b.1) := ⟨fun a b => le_total a.1 b.1⟩
    haveI : IsTrans (Rat × Rat) (fun a b => a.1 ≤ b.1) :=
      ⟨fun a b c hab hbc => le_trans hab hbc⟩
    exact List.sorted_insertionSort _ _
  cases hs : sortICBL (initialSWCList frac layers) with
  | nil =>
    rw [hs] at hlen
    exact absurd (List.length_eq_zero.mp hlen.symm) h
  | cons p rest =>
    rw [hs] at hsorted
    obtain ⟨hhead, htail⟩ := (List.sorted_cons).mp hsorted
    have htbl : icTable frac layers
        = ⟨p.1, p.2, 0, 1⟩ :: rest.map (fun q => ⟨q.1, q.2, 0, 0⟩) := by
      unfold icTable
      rw [hs]
    rw [htbl]
    refine ⟨?_, ?_, ⟨⟨p.1, p.2, 0, 1⟩, rest.map (fun q => ⟨q.1, q.2, 0, 0⟩), rfl, rfl, ?_⟩⟩
    · refine (List.sorted_cons).mpr ⟨?_, ?_⟩
      · intro b hb
        simp only [List.mem_map] at hb
        obtain ⟨q, hq, hbq⟩ := hb
        rw [← hbq]
        exact hhead q hq
      · rw [List.Sorted, List.pairwise_map]
        exact htail
    · intro r hr
      rcases List.mem_cons.mp hr with hr | hr
      · rw [hr]
      · simp only [List.mem_map] at hr
        obtain ⟨q, _, hq⟩ := hr
        rw [← hq]
    · intro r hr
      simp only [List.mem_map] at hr
      obtain ⟨q, _, hq⟩ := hr
      rw [← hq]

theorem dscsm_c4_ic_table_w :
    sampleLayers ≠ []
    ∧ (List.Sorted (fun a b : ICRow => a.ICBL ≤ b.ICBL) (icTable (1/2) sampleLayers)
      ∧ (∀ r ∈ icTable (1/2) sampleLayers, r.SNH4 = 0)
      ∧ (∃ hd tl, icTable (1/2) sampleLayers = hd :: tl ∧ hd.SNO3 = 1
          ∧ ∀ r ∈ tl, r.SNO3 = 0)) :=
  ⟨by decide, dscsm_c4_ic_table (1/2) sampleLayers (by decide)⟩

theorem run_fs_char (e : Env) (fs : FS) (inp : RunInputs)
    (cf : List (String × Content)) (eng : EngineResult) (L0 : Listing)
    (h1 : e.SETUP = true) (h2 : lookupA fs.dirs e.RUN_PATH = some L0) :
    (run e fs inp cf eng).fs
      = ⟨setA fs.dirs e.RUN_PATH (writeFiles (inputsListing e inp cf L0) eng.written)⟩ := by
  simp only [run, h1, h2]
  by_cases hrc : eng.returncode = 0
  · simp [hrc, readLoop_fs]
  · simp [hrc]

/-- C5 — confirmed.  After the stale-output clearing and input writing, no
file in the workspace passes the `OUT`-suffix test (provided the crop
writer emits no `OUT`-suffixed name, as every input artifact has a
different suffix); and after the engine invocation, the `OUT`-suffixed
files of the workspace are exactly those the engine itself wrote.
Applied to the second of two runs in the same workspace, the second
conclusion says only the second run's output files survive. -/
theorem dscsm_c5_stale_outputs (e : Env) (fs : FS) (inp : RunInputs)
    (cf : List (String × Content)) (eng : EngineResult) (L0 : Listing)
    (h1 : e.SETUP = true) (h2 : lookupA fs.dirs e.RUN_PATH = some L0)
    (hcf : ∀ p ∈ cf, endsOUT p.1 = false) :
    (∀ q ∈ keysOf (inputsListing e inp cf L0), endsOUT q = false)
    ∧ ∃ L', lookupA (run e fs inp cf eng).fs.dirs e.RUN_PATH = some L'
        ∧ ∀ q, (q ∈ keysOf L' ∧ endsOUT q = true)
            ↔ (q ∈ keysOf eng.written ∧ endsOUT q = true) := by
  have hclean := keys_inputsListing_not_OUT e inp cf L0 hcf
  refine ⟨hclean, ⟨writeFiles (inputsListing e inp cf L0) eng.written, ?_, ?_⟩⟩
  · rw [run_fs_char e fs inp cf eng L0 h1 h2]
    exact lookupA_setA_self _ _ _
  · intro q
    constructor
    · rintro ⟨hq, hout⟩
      rcases (mem_keys_writeFiles eng.written _ q).mp hq with hq | hq
      · rw [hclean q hq] at hout
        exact Bool.noConfusion hout
      · exact ⟨hq, hout⟩
    · rintro ⟨hq, hout⟩
      exact ⟨(mem_keys_writeFiles eng.written _ q).mpr (Or.inr hq), hout⟩

theorem dscsm_c5_stale_outputs_w :
    sampleEnv.SETUP = true
    ∧ lookupA sampleFS.dirs sampleEnv.RUN_PATH
        = some [("Stale.OUT", .file (.text "old")), ("dscsm048", .file .binaryCopy)]
    ∧ ((∀ q ∈ keysOf (inputsListing sampleEnv sampleInp []
          [("Stale.OUT", .file (.text "old")), ("dscsm048", .file .binaryCopy)]),
        endsOUT q = false)
      ∧ ∃ L', lookupA (run sampleEnv sampleFS sampleInp [] sampleEngine).fs.dirs
            sampleEnv.RUN_PATH = some L'
          ∧ ∀ q, (q ∈ keysOf L' ∧ endsOUT q = true)
              ↔ (q ∈ keysOf sampleEngine.written ∧ endsOUT q = true)) :=
  ⟨rfl, rfl, dscsm_c5_stale_outputs sampleEnv sampleFS sampleInp [] sampleEngine _ rfl rfl
    (by simp)⟩

/-- C6 — confirmed.  With the environment ready and the workspace present,
a nonzero engine exit code makes run() fail with the engine-execution
assertion whose message names the workspace's `ERROR.OUT` engine error
log; with exit code 0 no engine-execution error is ever produced. -/
theorem dscsm_c6_engine_exit (e : Env) (fs : FS) (inp : RunInputs)
    (cf : List (String × Content)) (eng : EngineResult) (L0 : Listing)
    (h1 : e.SETUP = true) (h2 : lookupA fs.dirs e.RUN_PATH = some L0) :
    (eng.returncode ≠ 0 →
      (run e fs inp cf eng).err
        = some (.engineExecution
            ("DSSAT execution Failed, check " ++ joinPath e.RUN_PATH "ERROR.OUT"
              ++ " file for a detailed report")))
    ∧ (eng.returncode = 0 →
      ∀ m, (run e fs inp cf eng).err ≠ some (.engineExecution m)) := by
  constructor
  · intro hrc
    simp [run, h1, h2, hrc, engineFailMsg]
  · intro hrc m
    simp only [run, h1, h2]
    simp only [hrc, ne_eq, not_true_eq_false, if_false, ite_false]
    rcases readLoop_err_cases e.OUTPUT_LIST
        (writeFiles (inputsListing e inp cf L0) eng.written)
        ⟨setA fs.dirs e.RUN_PATH (writeFiles (inputsListing e inp cf L0) eng.written)⟩ e
      with hcase | ⟨mm, hcase⟩
    · simp [hcase]
    · simp [hcase]

theorem dscsm_c6_engine_exit_w :
    sampleEnv.SETUP = true
    ∧ ((sampleEngineErr.returncode ≠ 0 →
        (run sampleEnv sampleFS sampleInp [] sampleEngineErr).err
          = some (.engineExecution
              ("DSSAT execution Failed, check " ++ joinPath sampleEnv.RUN_PATH "ERROR.OUT"
                ++ " file for a detailed report")))
      ∧ (sampleEngineErr.returncode = 0 →
        ∀ m, (run sampleEnv sampleFS sampleInp [] sampleEngineErr).err
          ≠ some (.engineExecution m))) :=
  ⟨rfl, dscsm_c6_engine_exit sampleEnv sampleFS sampleInp [] sampleEngineErr _ rfl rfl⟩

/-- C7 — confirmed.  With a clean engine exit: when some requested output
name has no corresponding file in the post-run workspace, run() fails with
the missing-output assertion naming the first such file; when every
requested file is present, run() succeeds and the output cache holds an
entry for every requested name — no requested output is silently
skipped. -/
theorem dscsm_c7_missing_output (e : Env) (fs : FS) (inp : RunInputs)
    (cf : List (String × Content)) (eng : EngineResult) (L0 : Listing)
    (h1 : e.SETUP = true) (h2 : lookupA fs.dirs e.RUN_PATH = some L0)
    (h3 : eng.returncode = 0) :
    (match firstMissing e.OUTPUT_LIST (writeFiles (inputsListing e inp cf L0) eng.written) with
     | some n => (run e fs inp cf eng).err = some (.outputMissing (missingMsg n e.RUN_PATH))
     | none => (run e fs inp cf eng).err = none
         ∧ ∀ n ∈ e.OUTPUT_LIST, (lookupA (run e fs inp cf eng).env.output n).isSome) := by
  have hrun : run e fs inp cf eng
      = readLoop e.OUTPUT_LIST (writeFiles (inputsListing e inp cf L0) eng.written) e
          ⟨setA fs.dirs e.RUN_PATH (writeFiles (inputsListing e inp cf L0) eng.written)⟩ := by
    simp only [run, h1, h2]
    simp [h3]
  cases hfm : firstMissing e.OUTPUT_LIST (writeFiles (inputsListing e inp cf L0) eng.written) with
  | some n =>
    rw [hrun]
    exact readLoop_missing _ _ _ _ n hfm
  | none =>
    rw [hrun]
    exact readLoop_ok _ _ _ _ hfm

theorem dscsm_c7_missing_output_w :
    sampleEnv.SETUP = true
    ∧ sampleEngineNone.returncode = 0
    ∧ (match firstMissing sampleEnv.OUTPUT_LIST
          (writeFiles (inputsListing sampleEnv sampleInp []
            [("Stale.OUT", .file (.text "old")), ("dscsm048", .file .binaryCopy)])
            sampleEngineNone.written) with
       | some n => (run sampleEnv sampleFS sampleInp [] sampleEngineNone).err
           = some (.outputMissing (missingMsg n sampleEnv.RUN_PATH))
       | none => (run sampleEnv sampleFS sampleInp [] sampleEngineNone).err = none
           ∧ ∀ n ∈ sampleEnv.OUTPUT_LIST,
               (lookupA (run sampleEnv sampleFS sampleInp [] sampleEngineNone).env.output
                 n).isSome) :=
  ⟨rfl, rfl, dscsm_c7_missing_output sampleEnv sampleFS sampleInp [] sampleEngineNone _
    rfl rfl rfl⟩

theorem setup_some_fs_char (cwd : String) (ov : Bool) (fresh : String)
    (static : List String) (e : Env) (fs : FS) :
    ∃ L2 : Listing, (setup (some cwd) ov fresh static e fs).fs = ⟨setA fs.dirs cwd L2⟩
      ∧ (lookupA L2 binName).isSome
      ∧ ∀ f ∈ static, endsCDE f = true → lookupA L2 f = some (.file (.cdeCopy f)) := by
  by_cases hdir : (lookupA fs.dirs cwd).isSome
  · by_cases hbin : (lookupA ((lookupA fs.dirs cwd).getD []) binName).isSome
    · refine ⟨copyCDEfiles static ((lookupA fs.dirs cwd).getD []), ?_, ?_, ?_⟩
      · simp [setup, hdir, hbin]
      · exact copyCDEfiles_isSome _ _ _ hbin
      · intro f hf hc
        exact copyCDEfiles_mem _ _ _ hf hc
    · refine ⟨copyCDEfiles static
          (setA ((lookupA fs.dirs cwd).getD []) binName (.file .binaryCopy)), ?_, ?_, ?_⟩
      · simp [setup, hdir, hbin]
      · exact copyCDEfiles_isSome _ _ _ (by rw [lookupA_setA_self]; rfl)
      · intro f hf hc
        exact copyCDEfiles_mem _ _ _ hf hc
  · refine ⟨copyCDEfiles static (setA [] binName (.file .binaryCopy)), ?_, ?_, ?_⟩
    · simp [setup, hdir, lookupA_setA_self, lookupA, setA_setA]
    · exact copyCDEfiles_isSome _ _ _ (by rw [lookupA_setA_self]; rfl)
    · intro f hf hc
      exact copyCDEfiles_mem _ _ _ hf hc

theorem setup_some_fs_stable (cwd : String) (ov : Bool) (fresh : String)
    (static : List String) (e : Env) (fs : FS) (L2 : Listing)
    (hdir : lookupA fs.dirs cwd = some L2)
    (hbin : (lookupA L2 binName).isSome)
    (hcde : ∀ f ∈ static, endsCDE f = true → lookupA L2 f = some (.file (.cdeCopy f))) :
    (setup (some cwd) ov fresh static e fs).fs = ⟨setA fs.dirs cwd L2⟩ := by
  have hdirS : (lookupA fs.dirs cwd).isSome := by rw [hdir]; rfl
  have hget : (lookupA fs.dirs cwd).getD [] = L2 := by rw [hdir]; rfl
  simp [setup, hdirS, hget, hbin, copyCDEfiles_id static L2 hcde]

theorem setup_some_trace_lite (cwd : String) (ov : Bool) (fresh : String)
    (static : List String) (e : Env) (fs : FS)
    (hdir : (lookupA fs.dirs cwd).isSome)
    (hbin : (lookupA ((lookupA fs.dirs cwd).getD []) binName).isSome) :
    (setup (some cwd) ov fresh static e fs).trace = cdeTrace static := by
  simp [setup, hdir, hbin]

/-- C8 — confirmed.  Running setup a second time on the same workspace path
performs no engine-binary copy (its trace holds `.CDE` copies only), leaves
the filesystem exactly as the first setup left it (so no reference file is
duplicated), and leaves the instance state unchanged. -/
theorem dscsm_c8_setup_idempotent (cwd fresh1 fresh2 : String) (ov1 ov2 : Bool)
    (static : List String) (e : Env) (fs : FS) :
    FsAction.copyBinary ∉ (setup (some cwd) ov2 fresh2 static
        (setup (some cwd) ov1 fresh1 static e fs).env
        (setup (some cwd) ov1 fresh1 static e fs).fs).trace
    ∧ (setup (some cwd) ov2 fresh2 static (setup (some cwd) ov1 fresh1 static e fs).env
        (setup (some cwd) ov1 fresh1 static e fs).fs).fs
      = (setup (some cwd) ov1 fresh1 static e fs).fs
    ∧ (setup (some cwd) ov2 fresh2 static (setup (some cwd) ov1 fresh1 static e fs).env
        (setup (some cwd) ov1 fresh1 static e fs).fs).env
      = (setup (some cwd) ov1 fresh1 static e fs).env := by
  obtain ⟨L2, hfs1, hbin, hcde⟩ := setup_some_fs_char cwd ov1 fresh1 static e fs
  have hlook : lookupA (setup (some cwd) ov1 fresh1 static e fs).fs.dirs cwd = some L2 := by
    rw [hfs1]
    exact lookupA_setA_self _ _ _
  have hdirS : (lookupA (setup (some cwd) ov1 fresh1 static e fs).fs.dirs cwd).isSome := by
    rw [hlook]
    rfl
  have hget : (lookupA (setup (some cwd) ov1 fresh1 static e fs).fs.dirs cwd).getD [] = L2 := by
    rw [hlook]
    rfl
  refine ⟨?_, ?_, rfl⟩
  · rw [setup_some_trace_lite cwd ov2 fresh2 static _ _ hdirS (by rw [hget]; exact hbin)]
    exact copyBinary_not_mem_cdeTrace static
  · rw [setup_some_fs_stable cwd ov2 fresh2 static _ _ L2 hlook hbin hcde, hfs1,
      setA_setA]

/-- C9 — confirmed.  The `overwrite` flag of setup is accepted but never
read: for every path argument, starting instance state and starting
filesystem, `overwrite := true` and `overwrite := false` produce
identical results. -/
theorem dscsm_c9_overwrite_noop (cwd : Option String) (fresh : String)
    (static : List String) (e : Env) (fs : FS) :
    setup cwd true fresh static e fs = setup cwd false fresh static e fs := rfl

/-- C10 — confirmed.  close() removes the workspace directory and nothing
else: the instance state (readiness flag, output cache) is returned intact,
every other directory is untouched, and a subsequent run() on the closed
instance gets past the readiness precondition check — it fails only later,
when listing the now-missing workspace, not with the precondition error. -/
theorem dscsm_c10_close_frame (e : Env) (fs : FS) (inp : RunInputs)
    (cf : List (String × Content)) (eng : EngineResult)
    (h1 : e.SETUP = true) (h2 : (lookupA fs.dirs e.RUN_PATH).isSome) :
    (close e fs).err = none
    ∧ (close e fs).env = e
    ∧ lookupA (close e fs).fs.dirs e.RUN_PATH = none
    ∧ (∀ p, p ≠ e.RUN_PATH → lookupA (close e fs).fs.dirs p = lookupA fs.dirs p)
    ∧ run (close e fs).env (close e fs).fs inp cf eng
        = ⟨some (.missingDir e.RUN_PATH), e, (close e fs).fs⟩ := by
  have hclose : close e fs = ⟨none, e, ⟨removeAll fs.dirs e.RUN_PATH⟩⟩ := by
    simp [close, h2]
  rw [hclose]
  refine ⟨rfl, rfl, lookupA_removeAll_self _ _,
    fun p hp => lookupA_removeAll_ne _ _ _ hp, ?_⟩
  simp [run, h1, lookupA_removeAll_self]

theorem dscsm_c10_close_frame_w :
    sampleEnv.SETUP = true
    ∧ (lookupA sampleFS.dirs sampleEnv.RUN_PATH).isSome
    ∧ ((close sampleEnv sampleFS).err = none
      ∧ (close sampleEnv sampleFS).env = sampleEnv
      ∧ lookupA (close sampleEnv sampleFS).fs.dirs sampleEnv.RUN_PATH = none
      ∧ (∀ p, p ≠ sampleEnv.RUN_PATH →
          lookupA (close sampleEnv sampleFS).fs.dirs p = lookupA sampleFS.dirs p)
      ∧ run (close sampleEnv sampleFS).env (close sampleEnv sampleFS).fs sampleInp []
            sampleEngine
          = ⟨some (.missingDir sampleEnv.RUN_PATH), sampleEnv,
              (close sampleEnv sampleFS).fs⟩) :=
  ⟨rfl, rfl, dscsm_c10_close_frame sampleEnv sampleFS sampleInp [] sampleEngine rfl rfl⟩
